import Mathlib

/-!
Verification of the mic-check development server (`dev-server.py`).

The server is a `SimpleHTTPRequestHandler` subclass, `CacheBustingHandler`:

* `end_headers` (lines 28-33) appends three no-cache headers to every
  response just before the header block is finalized;
* `do_GET` (lines 35-40) routes `/` and `/index.html` to
  `serve_cache_busted_html` and delegates every other path to the
  generic static-file behaviour of the superclass;
* `serve_cache_busted_html` (lines 42-72) reads `index.html`, substitutes
  the regex `(<script\s+type="module"\s+src="js/app\.js)(\?[^"]*)?(")`
  by `\1?v=<int(time.time())>\3` and serves the result, mapping a missing
  file to a 404 response and any other failure to a 500 response.

The regex engine fragment used by the source is deterministic (each
repetition operator is followed by a literal it cannot consume), so the
substitution is embedded as a direct recursive scanner, `subAll`, that
replaces every non-overlapping leftmost match exactly as `re.sub` does.
-/

/-- Python's `\s` character class for `str` patterns: the characters with
the Unicode White_Space property.  Used for the two `\s+` gaps of the
script-tag regex on line 57 of `dev-server.py`. -/
def isPySpace (c : Char) : Bool :=
  c = ' ' || c = '\t' || c = '\n' || c = '\r' || c = '\x0b' || c = '\x0c'
  || c = '\x1c' || c = '\x1d' || c = '\x1e' || c = '\x1f' || c = '\x85' || c = '\xa0'
  || c = '\u1680' || ('\u2000' ≤ c && c ≤ '\u200a') || c = '\u2028' || c = '\u2029'
  || c = '\u202f' || c = '\u205f' || c = '\u3000'

/-- The literal `<script` at the start of the regex on line 57. -/
def litScript : List Char := ['<', 's', 'c', 'r', 'i', 'p', 't']

/-- The literal `type="module"` of the regex on line 57. -/
def litType : List Char := ['t', 'y', 'p', 'e', '=', '"', 'm', 'o', 'd', 'u', 'l', 'e', '"']

/-- The literal `src="js/app.js` of the regex on line 57 (`app\.js` has an
escaped dot, so it is the plain text `js/app.js`). -/
def litSrc : List Char := ['s', 'r', 'c', '=', '"', 'j', 's', '/', 'a', 'p', 'p', '.', 'j', 's']

/-- Consume an exact literal from the front of the input; `none` when the
input does not start with the literal. -/
def stripLit : List Char → List Char → Option (List Char)
  | [], s => some s
  | _ :: _, [] => none
  | l :: ls, c :: cs => if c = l then stripLit ls cs else none

/-- Consume `\s+`: one or more whitespace characters, maximally.  The
maximal munch is exact here because in the source regex each `\s+` is
followed by a literal whose first character (`t`, `s`) is not whitespace,
so regex backtracking can never give a shorter match. -/
def stripSpaces1 : List Char → Option (List Char × List Char)
  | [] => none
  | c :: cs =>
    if isPySpace c then some (c :: cs.takeWhile isPySpace, cs.dropWhile isPySpace)
    else none

/-- Match the tail `(\?[^"]*)?(")` of the regex after `src="js/app.js`.
On `?...` the greedy `[^"]*` runs to the first `"` (the character class
excludes `"`), which must exist or the whole match fails — when
`dropWhile (· != '"')` returns `[]` there is no closing quote anywhere,
and the alternative of skipping the optional group also fails because the
current character is `?`, not `"`.  Returns group 1 (passed in as `g1`)
and the text after the closing quote. -/
def matchSrcTail (g1 : List Char) : List Char → Option (List Char × List Char)
  | '?' :: cs =>
    if (cs.dropWhile (fun x => x != '"')).isEmpty then none
    else some (g1, (cs.dropWhile (fun x => x != '"')).tail)
  | '"' :: cs => some (g1, cs)
  | _ => none

/-- Attempt the full regex
`(<script\s+type="module"\s+src="js/app\.js)(\?[^"]*)?(")` of line 57 at
the start of `s`.  On success returns the text of group 1 and the rest of
the input after the match (group 3 is always the single `"`). -/
def matchTag (s : List Char) : Option (List Char × List Char) :=
  (stripLit litScript s).bind fun s1 =>
  (stripSpaces1 s1).bind fun w1s2 =>
  (stripLit litType w1s2.2).bind fun s3 =>
  (stripSpaces1 s3).bind fun w2s4 =>
  (stripLit litSrc w2s4.2).bind fun s5 =>
  matchSrcTail (litScript ++ w1s2.1 ++ litType ++ w2s4.1 ++ litSrc) s5

/-- The replacement text that follows group 1: `?v=<timestamp>` plus the
closing quote contributed by group 3 (`rf'\1?v={timestamp}\3'`, line 58). -/
def replSuffix (ts : Int) : List Char := ("?v=" ++ toString ts).data ++ ['"']

/-- One scanning step of `re.sub`: if the pattern matches at the current
position, emit group 1 followed by the replacement and continue after the
match; otherwise emit one character and continue. -/
def subStep (ts : Int) (recur : List Char → List Char) (s : List Char) : List Char :=
  match matchTag s with
  | some (g1, rest) => g1 ++ replSuffix ts ++ recur rest
  | none =>
    match s with
    | [] => []
    | c :: cs => c :: recur cs

/-- Fuelled iteration of `subStep`; every successful match consumes at
least one character, so fuel `s.length` always suffices. -/
def subFuel (ts : Int) : Nat → List Char → List Char
  | 0, s => s
  | n + 1, s => subStep ts (subFuel ts n) s

/-- The `re.sub` call of lines 56-60: replace every non-overlapping
leftmost match of the script-tag pattern, scanning left to right. -/
def subAll (ts : Int) (s : List Char) : List Char := subFuel ts s.length s

/-- The content rewrite of `serve_cache_busted_html` at the string level:
`content = re.sub(pattern, rf'\1?v={timestamp}\3', content)`. -/
def cacheBustRewrite (ts : Int) (content : String) : String :=
  String.mk (subAll ts content.data)

/-- Whether the script-tag pattern matches anywhere in the document. -/
def hasMatch : List Char → Bool
  | [] => false
  | c :: cs => (matchTag (c :: cs)).isSome || hasMatch cs

/-- The canonically authored form of group 1, with single spaces:
`<script type="module" src="js/app.js`. -/
def tagChars : List Char := litScript ++ [' '] ++ litType ++ [' '] ++ litSrc

/-- An optional `?`-prefixed query string appended to the `src` path. -/
def optQuery : Option (List Char) → List Char
  | none => []
  | some q => '?' :: q

/-- A full source fragment matched by the pattern:
`<script type="module" src="js/app.js` + optional `?query` + `"`. -/
def tagFragment (q : Option (List Char)) : List Char := tagChars ++ optQuery q ++ ['"']

/-- What a matched fragment becomes after substitution with token `ts`:
`<script type="module" src="js/app.js?v=<ts>"`. -/
def tagReplaced (ts : Int) : List Char := tagChars ++ replSuffix ts

/-- Python's `int` applied to the (rational-valued) clock reading:
truncation toward zero, as in `timestamp = int(time.time())` on line 53.
The wall clock is modelled as a rational number of seconds. -/
def freshnessToken (t : Rat) : Int := t.num.tdiv t.den

/-- The three no-cache headers added by `CacheBustingHandler.end_headers`
(lines 30-32), in the order they are sent. -/
def noCacheHeaders : List (String × String) :=
  [("Cache-Control", "no-store, no-cache, must-revalidate, max-age=0"),
   ("Pragma", "no-cache"),
   ("Expires", "0")]

/-- `CacheBustingHandler.end_headers` (lines 28-33): appends the three
no-cache headers to whatever headers have already been buffered and then
finalizes the header block (`super().end_headers()`), so they are the
last headers of every response. -/
def end_headers (hs : List (String × String)) : List (String × String) :=
  hs ++ noCacheHeaders

/-- An HTTP response as observed on the wire: status code, the finalized
header list, and the body.  The `Server` and `Date` headers that the
standard library adds on every response are elided as irrelevant to the
claims. -/
structure Response where
  status : Nat
  headers : List (String × String)
  body : String

/-- Outcome of `open(html_path).read()` on lines 47-48: the decoded text,
a `FileNotFoundError`, or any other exception with its `str(e)` message
(permission error, decode error, ...). -/
inductive ReadError
  | notFound
  | other (msg : String)

/-- The server's view of the working directory for one request:
the outcome of reading `./index.html`, and the static file tree used by
the delegated `SimpleHTTPRequestHandler` behaviour (path without the
leading slash, mapped to file content). -/
structure Env where
  indexFile : Except ReadError String
  files : List (String × String)

/-- Fixed prefix of the standard library's default error page, up to and
including `Message: `.  Modelled from `BaseHTTPRequestHandler.send_error`
(HTML escaping of the message is elided). -/
def errHead (code : Nat) : String :=
  "<html><head><title>Error response</title></head><body><h1>Error response</h1><p>Error code: "
    ++ toString code ++ "</p><p>Message: "

/-- Fixed suffix of the standard library's default error page. -/
def errTail : String := ".</p></body></html>"

/-- Body of the default error page with the given message interpolated. -/
def errorBody (code : Nat) (msg : String) : String :=
  errHead code ++ msg ++ errTail

/-- `self.send_error(code, msg)` as called on lines 70 and 72: an error
response carrying the message in its body.  `send_error` also goes
through the overridden `end_headers`, so the no-cache headers are present
on error responses too. -/
def send_error (code : Nat) (msg : String) : Response :=
  { status := code
    headers := end_headers
      [("Content-Type", "text/html;charset=utf-8"),
       ("Connection", "close"),
       ("Content-Length", toString (errorBody code msg).utf8ByteSize)]
    body := errorBody code msg }

/-- `SimpleHTTPRequestHandler.translate_path`, restricted to what the
claims need: the query string and fragment are cut off (`path.split('?',
1)[0].split('#', 1)[0]`) and the leading slash is dropped before looking
the file up under the working directory.  Percent-decoding and `..`
normalization are elided. -/
def stripSlash : List Char → List Char
  | '/' :: rest => rest
  | s => s

/-- Translate a raw request path to a workspace-relative file path. -/
def translatePath (p : String) : String :=
  String.mk (stripSlash (p.data.takeWhile (fun c => c != '?' && c != '#')))

/-- Content type by file extension, modelling the `mimetypes`-based
`guess_type` of the superclass for the extensions that occur here. -/
def contentTypeFor (p : String) : String :=
  if (".html").data.isSuffixOf p.data then "text/html"
  else if (".css").data.isSuffixOf p.data then "text/css"
  else if (".js").data.isSuffixOf p.data then "text/javascript"
  else if (".json").data.isSuffixOf p.data then "application/json"
  else "application/octet-stream"

/-- The generic static-file serving that `do_GET` delegates to on line 40
(`super().do_GET()`), as described by the spec: resolve the path under
the working directory, stream the file bytes verbatim with a content type
chosen by extension, or return 404 when the file does not exist.  The
file content is never parsed or rewritten. -/
def staticServe (files : List (String × String)) (path : String) : Response :=
  match List.lookup (translatePath path) files with
  | some content =>
    { status := 200
      headers := end_headers
        [("Content-Type", contentTypeFor (translatePath path)),
         ("Content-Length", toString content.utf8ByteSize)]
      body := content }
  | none => send_error 404 "File not found"

/-- `CacheBustingHandler.serve_cache_busted_html` (lines 42-72), with
`now` the value of `time.time()` at the moment of the request: on a
successful read the content is rewritten with the freshness token and
served as UTF-8 HTML with its exact byte length; `FileNotFoundError`
becomes a 404 and any other exception a 500 carrying `str(e)`. -/
def serve_cache_busted_html (env : Env) (now : Rat) : Response :=
  match env.indexFile with
  | Except.ok content =>
    { status := 200
      headers := end_headers
        [("Content-Type", "text/html; charset=utf-8"),
         ("Content-Length", toString (cacheBustRewrite (freshnessToken now) content).utf8ByteSize)]
      body := cacheBustRewrite (freshnessToken now) content }
  | Except.error ReadError.notFound => send_error 404 "index.html not found"
  | Except.error (ReadError.other msg) => send_error 500 msg

/-- `CacheBustingHandler.do_GET` (lines 35-40): the raw request path
(`self.path`, query string included) is compared for exact equality with
`/` and `/index.html`; on a match the entry point is rewritten and
served, otherwise the request is delegated to generic static serving. -/
def do_GET (env : Env) (path : String) (now : Rat) : Response :=
  if path = "/" ∨ path = "/index.html" then serve_cache_busted_html env now
  else staticServe env.files path

/-- The request loop: each request is handled independently by `do_GET`;
no state survives between requests. -/
def serveAll (env : Env) (reqs : List (String × Rat)) : List Response :=
  reqs.map fun r => do_GET env r.1 r.2

/-- A concrete environment used by witnesses: `index.html` is absent and
one stylesheet exists on disk. -/
def envA : Env :=
  { indexFile := Except.error ReadError.notFound
    files := [("style.css", "h1 color: red")] }

theorem litScript_eq : litScript = ("<script").data := rfl

theorem litType_eq : litType = ("type=\"module\"").data := rfl

theorem litSrc_eq : litSrc = ("src=\"js/app.js").data := rfl

theorem tagChars_eq : tagChars = ("<script type=\"module\" src=\"js/app.js").data := rfl

theorem stripLit_length : ∀ (l s r : List Char), stripLit l s = some r →
    s.length = l.length + r.length := by
  intro l
  induction l with
  | nil =>
    intro s r h
    simp only [stripLit, Option.some.injEq] at h
    subst h
    simp
  | cons a as ih =>
    intro s r h
    cases s with
    | nil => simp [stripLit] at h
    | cons c cs =>
      simp only [stripLit] at h
      split at h
      · have := ih cs r h
        simp only [List.length_cons]
        omega
      · simp at h

theorem stripSpaces1_length : ∀ (s w r : List Char), stripSpaces1 s = some (w, r) →
    s.length = w.length + r.length ∧ 0 < w.length := by
  intro s w r h
  cases s with
  | nil => simp [stripSpaces1] at h
  | cons c cs =>
    simp only [stripSpaces1] at h
    split at h
    · simp only [Option.some.injEq, Prod.mk.injEq] at h
      obtain ⟨hw, hr⟩ := h
      subst hw
      subst hr
      have hlen : (cs.takeWhile isPySpace).length + (cs.dropWhile isPySpace).length
          = cs.length := by
        rw [← List.length_append, List.takeWhile_append_dropWhile]
      simp only [List.length_cons]
      omega
    · simp at h

theorem length_dropWhile_le (p : Char → Bool) :
    ∀ l : List Char, (l.dropWhile p).length ≤ l.length := by
  intro l
  induction l with
  | nil => simp [List.dropWhile]
  | cons a l ih =>
    simp only [List.dropWhile]
    split
    · exact Nat.le_trans ih (Nat.le_succ _)
    · simp

theorem matchSrcTail_length : ∀ (g s g2 r : List Char), matchSrcTail g s = some (g2, r) →
    g2 = g ∧ r.length < s.length := by
  intro g s g2 r h
  rw [matchSrcTail.eq_def] at h
  split at h
  · next cs =>
    split at h
    · simp at h
    · next hne =>
      simp only [Option.some.injEq, Prod.mk.injEq] at h
      obtain ⟨hg, hr⟩ := h
      subst hg
      have h1 : (cs.dropWhile (fun x => x != '"')).length ≤ cs.length :=
        length_dropWhile_le _ cs
      have h2 : 0 < (cs.dropWhile (fun x => x != '"')).length := by
        cases e : cs.dropWhile (fun x => x != '"') with
        | nil => rw [e] at hne; simp at hne
        | cons d ds => simp [e]
      have h3 : r.length = (cs.dropWhile (fun x => x != '"')).length - 1 := by
        subst hr
        simp [List.length_tail]
      refine ⟨rfl, ?_⟩
      simp only [List.length_cons]
      omega
  · next cs =>
    simp only [Option.some.injEq, Prod.mk.injEq] at h
    obtain ⟨hg, hr⟩ := h
    subst hg
    subst hr
    simp
  · simp at h

theorem matchTag_length : ∀ (s g r : List Char), matchTag s = some (g, r) →
    r.length < s.length := by
  intro s g r h
  unfold matchTag at h
  rw [Option.bind_eq_some] at h
  obtain ⟨s1, e1, h⟩ := h
  rw [Option.bind_eq_some] at h
  obtain ⟨⟨w1, s2⟩, e2, h⟩ := h
  dsimp only at h
  rw [Option.bind_eq_some] at h
  obtain ⟨s3, e3, h⟩ := h
  rw [Option.bind_eq_some] at h
  obtain ⟨⟨w2, s4⟩, e4, h⟩ := h
  dsimp only at h
  rw [Option.bind_eq_some] at h
  obtain ⟨s5, e5, h⟩ := h
  have l1 := stripLit_length _ _ _ e1
  have l2 := stripSpaces1_length _ _ _ e2
  have l3 := stripLit_length _ _ _ e3
  have l4 := stripSpaces1_length _ _ _ e4
  have l5 := stripLit_length _ _ _ e5
  have l6 := (matchSrcTail_length _ _ _ _ h).2
  omega

theorem matchTag_nil : matchTag [] = none := rfl

theorem subFuel_nil (ts : Int) : ∀ n, subFuel ts n [] = [] := by
  intro n
  cases n with
  | zero => rfl
  | succ n => rfl

theorem subStep_congr (ts : Int) (f g : List Char → List Char) (s : List Char)
    (h : ∀ r, r.length < s.length → f r = g r) : subStep ts f s = subStep ts g s := by
  cases e : matchTag s with
  | some p =>
    obtain ⟨g1, rest⟩ := p
    simp only [subStep, e]
    rw [h rest (matchTag_length s g1 rest e)]
  | none =>
    simp only [subStep, e]
    cases s with
    | nil => rfl
    | cons c cs =>
      show c :: f cs = c :: g cs
      rw [h cs (by simp)]

theorem subFuel_step (ts : Int) :
    ∀ n s, s.length ≤ n → subFuel ts n s = subFuel ts (n + 1) s := by
  intro n
  induction n using Nat.strong_induction_on with
  | _ n ih =>
    intro s hs
    cases s with
    | nil => rw [subFuel_nil, subFuel_nil]
    | cons c cs =>
      cases n with
      | zero => simp at hs
      | succ n2 =>
        show subStep ts (subFuel ts n2) (c :: cs) = subStep ts (subFuel ts (n2 + 1)) (c :: cs)
        apply subStep_congr
        intro r hr
        have hrn : r.length ≤ n2 := by
          simp only [List.length_cons] at hr hs
          omega
        exact ih n2 (Nat.lt_succ_self n2) r hrn

theorem subFuel_ge (ts : Int) :
    ∀ k n s, s.length ≤ n → subFuel ts n s = subFuel ts (n + k) s := by
  intro k
  induction k with
  | zero => intro n s _; rfl
  | succ k ih =>
    intro n s hs
    rw [ih n s hs]
    exact subFuel_step ts (n + k) s (Nat.le_trans hs (Nat.le_add_right n k))

theorem subAll_eq_fuel (ts : Int) (n : Nat) (s : List Char) (h : s.length ≤ n) :
    subAll ts s = subFuel ts n s := by
  obtain ⟨k, hk⟩ := Nat.exists_eq_add_of_le h
  subst hk
  exact subFuel_ge ts k s.length s (Nat.le_refl _)

theorem subAll_match (ts : Int) (s g rest : List Char) (e : matchTag s = some (g, rest)) :
    subAll ts s = g ++ replSuffix ts ++ subAll ts rest := by
  cases s with
  | nil => rw [matchTag_nil] at e; exact Option.noConfusion e
  | cons c cs =>
    have h1 : subAll ts (c :: cs) = subStep ts (subFuel ts cs.length) (c :: cs) := rfl
    rw [h1]
    simp only [subStep, e]
    have h2 : rest.length ≤ cs.length := by
      have := matchTag_length _ _ _ e
      simp only [List.length_cons] at this
      omega
    rw [← subAll_eq_fuel ts cs.length rest h2]

theorem subAll_nomatch (ts : Int) (c : Char) (cs : List Char)
    (e : matchTag (c :: cs) = none) : subAll ts (c :: cs) = c :: subAll ts cs := by
  have h1 : subAll ts (c :: cs) = subStep ts (subFuel ts cs.length) (c :: cs) := rfl
  rw [h1]
  simp only [subStep, e]
  rfl

theorem matchTag_cons_ne (c : Char) (t : List Char) (h : c ≠ '<') :
    matchTag (c :: t) = none := by
  have hs : stripLit litScript (c :: t) = none := by
    simp only [litScript, stripLit, if_neg h]
  simp only [matchTag, hs, Option.bind]

theorem subAll_append_left (ts : Int) : ∀ (pre s : List Char), (∀ c ∈ pre, c ≠ '<') →
    subAll ts (pre ++ s) = pre ++ subAll ts s := by
  intro pre
  induction pre with
  | nil => intro s _; simp
  | cons a pre ih =>
    intro s h
    have ha : a ≠ '<' := h a (List.mem_cons_self a pre)
    rw [List.cons_append, subAll_nomatch ts a (pre ++ s) (matchTag_cons_ne a _ ha),
      ih s (fun c hc => h c (List.mem_cons_of_mem a hc))]
    rfl

theorem subAll_id_of_no_match (ts : Int) : ∀ s, hasMatch s = false → subAll ts s = s := by
  intro s
  induction s with
  | nil => intro _; rfl
  | cons c cs ih =>
    intro h
    simp only [hasMatch, Bool.or_eq_false_iff] at h
    obtain ⟨h1, h2⟩ := h
    have e : matchTag (c :: cs) = none := by
      cases e : matchTag (c :: cs) with
      | none => rfl
      | some p => rw [e] at h1; simp at h1
    rw [subAll_nomatch ts c cs e, ih h2]

theorem dropWhile_no_quote : ∀ (q post : List Char), (∀ c ∈ q, c ≠ '"') →
    List.dropWhile (fun x => x != '"') (q ++ '"' :: post) = '"' :: post := by
  intro q
  induction q with
  | nil => intro post _; simp [List.dropWhile]
  | cons a as ih =>
    intro post h
    have ha : (a != '"') = true := by
      simpa using h a (List.mem_cons_self a as)
    simp only [List.cons_append, List.dropWhile, ha]
    exact ih post (fun c hc => h c (List.mem_cons_of_mem a hc))

theorem matchTag_tagChars (xs : List Char) :
    matchTag (tagChars ++ xs) = matchSrcTail tagChars xs := rfl

theorem matchSrcTail_query (g1 q post : List Char) (hq : ∀ c ∈ q, c ≠ '"') :
    matchSrcTail g1 ('?' :: (q ++ '"' :: post)) = some (g1, post) := by
  have hd := dropWhile_no_quote q post hq
  simp only [matchSrcTail, hd]
  simp

theorem matchTag_fragment (q : Option (List Char)) (post : List Char)
    (hq : ∀ c ∈ optQuery q, c ≠ '"') :
    matchTag (tagFragment q ++ post) = some (tagChars, post) := by
  have h0 : tagFragment q ++ post = tagChars ++ (optQuery q ++ '"' :: post) := by
    simp [tagFragment, List.append_assoc]
  rw [h0, matchTag_tagChars]
  cases q with
  | none => rfl
  | some qq =>
    show matchSrcTail tagChars ('?' :: (qq ++ '"' :: post)) = some (tagChars, post)
    exact matchSrcTail_query tagChars qq post (fun c hc => hq c (List.mem_cons_of_mem '?' hc))

theorem subAll_fragment (ts : Int) (pre post : List Char) (q : Option (List Char))
    (hpre : ∀ c ∈ pre, c ≠ '<') (hq : ∀ c ∈ optQuery q, c ≠ '"') :
    subAll ts (pre ++ tagFragment q ++ post) = pre ++ tagReplaced ts ++ subAll ts post := by
  rw [List.append_assoc, subAll_append_left ts pre _ hpre,
    subAll_match ts _ _ _ (matchTag_fragment q post hq)]
  simp [tagReplaced, List.append_assoc]

theorem freshnessToken_eq_floor (t : Rat) (h : 0 ≤ t) : freshnessToken t = ⌊t⌋ := by
  unfold freshnessToken
  rw [Rat.floor_def]
  exact Int.tdiv_eq_ediv (Rat.num_nonneg.mpr h) (Int.natCast_nonneg t.den)

/-- Claim C1: every response the handler sends — entry-point rewrite,
static file hit, static 404, missing-index 404 and internal 500 alike —
carries the three no-cache headers, and they form the final segment of
the header list, appended just before the headers are finalized, so no
code path can omit them. -/
theorem noCache_on_every_response :
    ∀ (env : Env) (path : String) (now : Rat),
      (∃ pre, (do_GET env path now).headers = pre ++ noCacheHeaders) ∧
      ("Cache-Control", "no-store, no-cache, must-revalidate, max-age=0")
        ∈ (do_GET env path now).headers ∧
      ("Pragma", "no-cache") ∈ (do_GET env path now).headers ∧
      ("Expires", "0") ∈ (do_GET env path now).headers := by
  intro env path now
  have hsuf : ∃ pre, (do_GET env path now).headers = pre ++ noCacheHeaders := by
    unfold do_GET
    split
    · unfold serve_cache_busted_html
      cases env.indexFile with
      | ok content => exact ⟨_, rfl⟩
      | error err =>
        cases err with
        | notFound => exact ⟨_, rfl⟩
        | other msg => exact ⟨_, rfl⟩
    · unfold staticServe
      cases List.lookup (translatePath path) env.files with
      | some content => exact ⟨_, rfl⟩
      | none => exact ⟨_, rfl⟩
  obtain ⟨pre, hpre⟩ := hsuf
  refine ⟨⟨pre, hpre⟩, ?_, ?_, ?_⟩ <;> rw [hpre] <;>
    exact List.mem_append.mpr (Or.inr (by simp [noCacheHeaders]))

/-- Claim C2: substitution with token `ts` turns every fragment
`<script type="module" src="js/app.js` + optional `?query` + `"` into
`<script type="module" src="js/app.js?v=<ts>"`, discarding any prior
query string; in particular, at token 1700000000 the spec's two scenario
documents (no query, and a stale `?v=1699999999`) both rewrite to
`<script type="module" src="js/app.js?v=1700000000"></script>`. -/
theorem rewrite_replaces_src_query :
    (∀ (ts : Int) (pre post : List Char) (q : Option (List Char)),
      (∀ c ∈ pre, c ≠ '<') → (∀ c ∈ optQuery q, c ≠ '"') →
      subAll ts (pre ++ tagFragment q ++ post) = pre ++ tagReplaced ts ++ subAll ts post) ∧
    cacheBustRewrite 1700000000 "<script type=\"module\" src=\"js/app.js\"></script>"
      = "<script type=\"module\" src=\"js/app.js?v=1700000000\"></script>" ∧
    cacheBustRewrite 1700000000 "<script type=\"module\" src=\"js/app.js?v=1699999999\"></script>"
      = "<script type=\"module\" src=\"js/app.js?v=1700000000\"></script>" :=
  ⟨subAll_fragment, by decide, by decide⟩

theorem rewrite_replaces_src_query_witness :
    subAll 7 ([] ++ tagFragment none ++ ['>']) = [] ++ tagReplaced 7 ++ subAll 7 ['>'] :=
  rewrite_replaces_src_query.1 7 [] ['>'] none (by decide) (by decide)

/-- Claim C3: the substitution touches nothing but exact pattern matches:
a document with no match anywhere (in particular one whose script tag
lists `src` before `type="module"`, which the pattern does not match) is
returned unchanged for every token, and in a document where a matching
tag is followed by another occurrence of `js/app.js` in a non-matching
tag, only the matching tag is rewritten. -/
theorem rewrite_only_matching_tag :
    (∀ (ts : Int) (doc : List Char), hasMatch doc = false → subAll ts doc = doc) ∧
    hasMatch ("<script src=\"js/app.js\" type=\"module\"></script>").data = false ∧
    (∀ ts : Int, subAll ts (tagFragment none ++ ("></script><img src=\"js/app.js\">").data)
      = tagReplaced ts ++ ("></script><img src=\"js/app.js\">").data) := by
  refine ⟨fun ts doc h => subAll_id_of_no_match ts doc h, by decide, ?_⟩
  intro ts
  have h := subAll_fragment ts [] (("></script><img src=\"js/app.js\">").data) none
    (by decide) (by decide)
  simp only [List.nil_append] at h
  rw [h, subAll_id_of_no_match ts _ (by decide)]

theorem rewrite_only_matching_tag_witness :
    subAll 3 ("<script src=\"js/app.js\" type=\"module\"></script>").data
      = ("<script src=\"js/app.js\" type=\"module\"></script>").data :=
  rewrite_only_matching_tag.1 3 ("<script src=\"js/app.js\" type=\"module\"></script>").data
    (by decide)

/-- Claim C4: a GET is rewritten exactly when the raw path is `/` or
`/index.html`; every other path is delegated to generic static serving,
which resolves the translated path in the working directory and either
streams the file bytes verbatim (no HTML parsing) with a content type
chosen by extension, or returns 404 when the file is absent. -/
theorem routing_entry_vs_static :
    ∀ (env : Env) (now : Rat),
      (∀ path : String, path = "/" ∨ path = "/index.html" →
        do_GET env path now = serve_cache_busted_html env now) ∧
      (∀ path : String, path ≠ "/" → path ≠ "/index.html" →
        do_GET env path now = staticServe env.files path) ∧
      (∀ path content : String,
        List.lookup (translatePath path) env.files = some content →
          (staticServe env.files path).status = 200 ∧
          (staticServe env.files path).body = content ∧
          (staticServe env.files path).headers =
            [("Content-Type", contentTypeFor (translatePath path)),
             ("Content-Length", toString content.utf8ByteSize)] ++ noCacheHeaders) ∧
      (∀ path : String, List.lookup (translatePath path) env.files = none →
          (staticServe env.files path).status = 404) := by
  intro env now
  refine ⟨?_, ?_, ?_, ?_⟩
  · intro path hp
    unfold do_GET
    rw [if_pos hp]
  · intro path h1 h2
    unfold do_GET
    rw [if_neg (fun h => h.elim h1 h2)]
  · intro path content hc
    unfold staticServe
    rw [hc]
    exact ⟨rfl, rfl, rfl⟩
  · intro path hc
    unfold staticServe
    rw [hc]
    rfl

theorem routing_entry_vs_static_witness :
    do_GET envA "/style.css" 0 = staticServe envA.files "/style.css" ∧
    (staticServe envA.files "/style.css").status = 200 ∧
    (staticServe envA.files "/style.css").body = "h1 color: red" :=
  ⟨(routing_entry_vs_static envA 0).2.1 "/style.css" (by decide) (by decide),
   ((routing_entry_vs_static envA 0).2.2.1 "/style.css" "h1 color: red" (by decide)).1,
   ((routing_entry_vs_static envA 0).2.2.1 "/style.css" "h1 color: red" (by decide)).2.1⟩

/-- Claim C5: when the entry-point document contains no fragment matching
the pattern, the 200 response body is the original file content,
byte for byte; the rewrite is best-effort and raises no error. -/
theorem no_tag_body_unchanged :
    ∀ (files : List (String × String)) (now : Rat) (content : String),
      hasMatch content.data = false →
      (serve_cache_busted_html ⟨Except.ok content, files⟩ now).status = 200 ∧
      (serve_cache_busted_html ⟨Except.ok content, files⟩ now).body = content := by
  intro files now content h
  refine ⟨rfl, ?_⟩
  show String.mk (subAll (freshnessToken now) content.data) = content
  rw [subAll_id_of_no_match _ _ h]

theorem no_tag_body_unchanged_witness :
    (serve_cache_busted_html ⟨Except.ok "<p>hello</p>", []⟩ 0).status = 200 ∧
    (serve_cache_busted_html ⟨Except.ok "<p>hello</p>", []⟩ 0).body = "<p>hello</p>" :=
  no_tag_body_unchanged [] 0 "<p>hello</p>" (by decide)

/-- Claim C6: when `index.html` is missing, both `/` and `/index.html`
answer with the 404 error response carrying the explanatory message
`index.html not found`, whatever static files exist — the handler never
falls back to generic static serving for these paths. -/
theorem missing_index_yields_404 :
    ∀ (files : List (String × String)) (now : Rat),
      do_GET ⟨Except.error ReadError.notFound, files⟩ "/" now
        = send_error 404 "index.html not found" ∧
      do_GET ⟨Except.error ReadError.notFound, files⟩ "/index.html" now
        = send_error 404 "index.html not found" ∧
      (send_error 404 "index.html not found").status = 404 ∧
      (∃ a b : String, (send_error 404 "index.html not found").body
        = a ++ ("index.html not found" ++ b)) := by
  intro files now
  refine ⟨?_, ?_, rfl, ⟨errHead 404, errTail, rfl⟩⟩
  · unfold do_GET
    rw [if_pos (Or.inl rfl)]
    rfl
  · unfold do_GET
    rw [if_pos (Or.inr rfl)]
    rfl

/-- Claim C7: any failure other than file-not-found while reading or
processing the entry point produces a 500 response whose body contains
the failure description (`str(e)`), and the handler remains a total
function: a request list of any length still yields one response per
request, so the process keeps serving. -/
theorem index_error_yields_500 :
    ∀ (files : List (String × String)) (now : Rat) (msg : String)
      (reqs : List (String × Rat)),
      (serve_cache_busted_html ⟨Except.error (ReadError.other msg), files⟩ now).status = 500 ∧
      (∃ a b : String,
        (serve_cache_busted_html ⟨Except.error (ReadError.other msg), files⟩ now).body
          = a ++ (msg ++ b)) ∧
      (serveAll ⟨Except.error (ReadError.other msg), files⟩ reqs).length = reqs.length := by
  intro files now msg reqs
  exact ⟨rfl, ⟨errHead 500, errTail, rfl⟩, by simp [serveAll]⟩

/-- Claim C8: the freshness token is the whole-second part of the
wall-clock reading (`int(time.time())` equals the floor for the
non-negative clock); it is monotone in the clock, strictly larger across
clock readings at least one second apart (so the `v=` values differ),
and two distinct readings within the same second can yield the same
token. -/
theorem freshness_token_time :
    (∀ t : Rat, 0 ≤ t → freshnessToken t = ⌊t⌋) ∧
    (∀ t1 t2 : Rat, 0 ≤ t1 → t1 ≤ t2 → freshnessToken t1 ≤ freshnessToken t2) ∧
    (∀ t1 t2 : Rat, 0 ≤ t1 → t1 + 1 ≤ t2 → freshnessToken t1 < freshnessToken t2) ∧
    (∃ t1 t2 : Rat, 0 ≤ t1 ∧ t1 < t2 ∧ freshnessToken t1 = freshnessToken t2) := by
  refine ⟨freshnessToken_eq_floor, ?_, ?_, ?_⟩
  · intro t1 t2 h1 h12
    rw [freshnessToken_eq_floor t1 h1, freshnessToken_eq_floor t2 (le_trans h1 h12)]
    exact Int.floor_le_floor h12
  · intro t1 t2 h1 h12
    have h2 : (0 : Rat) ≤ t2 := le_trans (by linarith) h12
    rw [freshnessToken_eq_floor t1 h1, freshnessToken_eq_floor t2 h2]
    have hle : ⌊t1 + 1⌋ ≤ ⌊t2⌋ := Int.floor_le_floor h12
    rw [Int.floor_add_one] at hle
    omega
  · refine ⟨1/3, 2/3, by norm_num, by norm_num, ?_⟩
    rw [freshnessToken_eq_floor (1/3) (by norm_num),
      freshnessToken_eq_floor (2/3) (by norm_num)]
    have e1 : ⌊(1 : Rat)/3⌋ = 0 := by
      rw [Int.floor_eq_iff]
      norm_num
    have e2 : ⌊(2 : Rat)/3⌋ = 0 := by
      rw [Int.floor_eq_iff]
      norm_num
    rw [e1, e2]

theorem freshness_token_time_witness :
    freshnessToken 0 < freshnessToken 1 :=
  freshness_token_time.2.2.1 0 1 (le_refl 0) (by simp)

/-- Claim C9: the routing test is exact string equality on the raw
request path, query string included, so any path other than the exact
strings `/` and `/index.html` — for instance `/index.html?x=1` — is
delegated untouched to generic static serving. -/
theorem exact_path_routing :
    (∀ (env : Env) (now : Rat) (path : String), path ≠ "/" → path ≠ "/index.html" →
      do_GET env path now = staticServe env.files path) ∧
    (∀ (env : Env) (now : Rat),
      do_GET env "/index.html?x=1" now = staticServe env.files "/index.html?x=1") := by
  constructor
  · intro env now path h1 h2
    unfold do_GET
    rw [if_neg (fun h => h.elim h1 h2)]
  · intro env now
    unfold do_GET
    rw [if_neg (by decide)]

theorem exact_path_routing_witness :
    do_GET envA "/index.html?x=1" 0 = staticServe envA.files "/index.html?x=1" :=
  exact_path_routing.1 envA 0 "/index.html?x=1" (by decide) (by decide)

/-- Claim C10: when a document contains two fragments matching the
pattern, the substitution rewrites both occurrences, each with the same
freshness token. -/
theorem all_matching_tags_rewritten :
    ∀ (ts : Int) (pre mid post : List Char) (q1 q2 : Option (List Char)),
      (∀ c ∈ pre, c ≠ '<') → (∀ c ∈ mid, c ≠ '<') → hasMatch post = false →
      (∀ c ∈ optQuery q1, c ≠ '"') → (∀ c ∈ optQuery q2, c ≠ '"') →
      subAll ts (pre ++ tagFragment q1 ++ (mid ++ tagFragment q2 ++ post))
        = pre ++ tagReplaced ts ++ (mid ++ tagReplaced ts ++ post) := by
  intro ts pre mid post q1 q2 hpre hmid hpost hq1 hq2
  rw [subAll_fragment ts pre _ q1 hpre hq1, subAll_fragment ts mid post q2 hmid hq2,
    subAll_id_of_no_match ts post hpost]

theorem all_matching_tags_rewritten_witness :
    subAll 9 ([] ++ tagFragment none ++ ([' '] ++ tagFragment (some ['v', '=', '1']) ++ []))
      = [] ++ tagReplaced 9 ++ ([' '] ++ tagReplaced 9 ++ []) :=
  all_matching_tags_rewritten 9 [] [' '] [] none (some ['v', '=', '1'])
    (by decide) (by decide) (by decide) (by decide) (by decide)
